import Mathlib

/-
Verification of the rendering/analysis core of a waveform renderer
(`src/renderer.ts`): spectral feature extraction, color-stop
interpolation, tiled canvas management and the bar/line rasterizer's
fill-style discipline.

Sections are ordered: data model and operations first (shallow embedding
of the TypeScript source), then the theorems.  Real-number (floating
point) computations of the source are modelled over ℝ; pixel/position
arithmetic is modelled over ℚ; counters and indices over ℕ/ℤ.
-/

namespace WS

/-! ## Color parsing (`Renderer.parseColor`, renderer.ts 1084-1116)

The source matches a color string against three regular expressions in
order: `rgba?\((\d+),\s*(\d+),\s*(\d+)(?:,\s*[\d.]+)?\)`, then
`#([0-9a-f]{2})([0-9a-f]{2})([0-9a-f]{2})` (case-insensitive), then
`#([0-9a-f])([0-9a-f])([0-9a-f])` (case-insensitive).  A JavaScript
`String.match` finds the leftmost substring match, so each pattern is
tried at every start position from the left. -/

/-- An RGB triple as produced by `parseColor`. -/
structure Rgb where
  r : ℕ
  g : ℕ
  b : ℕ
  deriving DecidableEq, Repr

/-- `\s` of the regexps: an ASCII whitespace character. -/
def isSpaceChar (c : Char) : Bool :=
  c = (' ') || c = ('\t') || c = ('\n') || c = ('\r')

/-- Decimal value of a run of digit characters, as `parseInt(s, 10)`. -/
def digitsToNat (ds : List Char) : ℕ :=
  ds.foldl (fun acc c => 10 * acc + (c.toNat - 48)) 0

/-- Consume one expected character. -/
def expectChar (c : Char) : List Char → Option (List Char)
  | x :: xs => if x = c then some xs else none
  | [] => none

/-- Consume `\d+` (greedy; the regexps always follow it by a non-digit). -/
def expectDigits (cs : List Char) : Option (ℕ × List Char) :=
  let ds := cs.takeWhile (fun c => c.isDigit)
  if ds.isEmpty then none else some (digitsToNat ds, cs.drop ds.length)

/-- Consume `\s*`. -/
def skipSpaces (cs : List Char) : List Char :=
  cs.dropWhile isSpaceChar

/-- After the third number of `rgba?(...)`: the optional alpha group
`(?:,\s*[\d.]+)?` followed by the closing parenthesis. -/
def matchRgbTail (cs : List Char) : Bool :=
  match cs with
  | x :: rest =>
    if x = (')') then true
    else if x = (',') then
      let rest2 := skipSpaces rest
      let ds := rest2.takeWhile (fun c => c.isDigit || c = ('.'))
      if ds.isEmpty then false
      else match expectChar (')') (rest2.drop ds.length) with
        | some _ => true
        | none => false
    else false
  | [] => false

/-- Try the `rgba?\((\d+),\s*(\d+),\s*(\d+)(?:,\s*[\d.]+)?\)` pattern at
the start of `cs`. -/
def matchRgbAt (cs : List Char) : Option Rgb :=
  match expectChar ('r') cs with
  | none => none
  | some cs =>
  match expectChar ('g') cs with
  | none => none
  | some cs =>
  match expectChar ('b') cs with
  | none => none
  | some cs =>
  let cs := match expectChar ('a') cs with
    | some rest => rest
    | none => cs
  match expectChar ('(') cs with
  | none => none
  | some cs =>
  match expectDigits cs with
  | none => none
  | some (n1, cs) =>
  match expectChar (',') cs with
  | none => none
  | some cs =>
  match expectDigits (skipSpaces cs) with
  | none => none
  | some (n2, cs) =>
  match expectChar (',') cs with
  | none => none
  | some cs =>
  match expectDigits (skipSpaces cs) with
  | none => none
  | some (n3, cs) =>
  if matchRgbTail cs then some ⟨n1, n2, n3⟩ else none

/-- Value of one hex digit, case-insensitively (`[0-9a-f]` with the `i`
flag). -/
def hexVal (c : Char) : Option ℕ :=
  if c.isDigit then some (c.toNat - 48)
  else if (('a') ≤ c && c ≤ ('f')) then some (c.toNat - 87)
  else if (('A') ≤ c && c ≤ ('F')) then some (c.toNat - 55)
  else none

/-- Try `#([0-9a-f]{2})([0-9a-f]{2})([0-9a-f]{2})` at the start. -/
def matchHex6At (cs : List Char) : Option Rgb :=
  match cs with
  | x :: c1 :: c2 :: c3 :: c4 :: c5 :: c6 :: _ =>
    if x = ('#') then
      match hexVal c1, hexVal c2, hexVal c3, hexVal c4, hexVal c5, hexVal c6 with
      | some v1, some v2, some v3, some v4, some v5, some v6 =>
        some ⟨16 * v1 + v2, 16 * v3 + v4, 16 * v5 + v6⟩
      | _, _, _, _, _, _ => none
    else none
  | _ => none

/-- Try `#([0-9a-f])([0-9a-f])([0-9a-f])` at the start; each digit is
doubled (`parseInt(d + d, 16)`). -/
def matchHex3At (cs : List Char) : Option Rgb :=
  match cs with
  | x :: c1 :: c2 :: c3 :: _ =>
    if x = ('#') then
      match hexVal c1, hexVal c2, hexVal c3 with
      | some v1, some v2, some v3 =>
        some ⟨16 * v1 + v1, 16 * v2 + v2, 16 * v3 + v3⟩
      | _, _, _ => none
    else none
  | _ => none

/-- Leftmost match of a pattern over all start positions, as performed
by `String.match`. -/
def searchPattern (f : List Char → Option Rgb) : List Char → Option Rgb
  | [] => none
  | c :: rest =>
    match f (c :: rest) with
    | some r => some r
    | none => searchPattern f rest

/-- `Renderer.parseColor` (renderer.ts 1084-1116): rgb/rgba triple, then
6-digit hex, then 3-digit hex; `none` when no pattern matches. -/
def parseColor (color : String) : Option Rgb :=
  match searchPattern matchRgbAt color.data with
  | some rgb => some rgb
  | none =>
    match searchPattern matchHex6At color.data with
    | some rgb => some rgb
    | none =>
      match searchPattern matchHex3At color.data with
      | some rgb => some rgb
      | none => none

/-! ## Color mapping (`Renderer.getColorValue`, renderer.ts 1029-1077) -/

/-- `Math.min` on numbers. -/
def jsMin {α : Type} [LinearOrder α] (a b : α) : α :=
  if a ≤ b then a else b

/-- `Math.max` on numbers. -/
def jsMax {α : Type} [LinearOrder α] (a b : α) : α :=
  if a ≤ b then b else a

/-- A color stop `{stop: number, color: string}`.  Positions are modelled
over a linear ordered field (ℚ below for concrete evaluation). -/
structure ColorStop (α : Type) where
  stop : α
  color : String

instance {α : Type} [Zero α] : Inhabited (ColorStop α) := ⟨⟨0, ""⟩⟩

/-- `[...colorStops].sort((a, b) => a.stop - b.stop)`: a stable ascending
sort by position (JavaScript `Array.prototype.sort` is stable, and the
output of a stable sort is unique, so any stable sort models it). -/
def sortStops {α : Type} [LinearOrder α] (colorStops : List (ColorStop α)) :
    List (ColorStop α) :=
  colorStops.insertionSort (fun a b => a.stop ≤ b.stop)

/-- The `for` loop of `getColorValue` searching for the first adjacent
pair with `stops[i].stop ≤ v ≤ stops[i+1].stop`; `none` when no pair
matches (the source then keeps `lowerIndex = 0`). -/
def findLowerIndexAux {α : Type} [LinearOrder α] (v : α) :
    List (ColorStop α) → Option ℕ
  | a :: b :: rest =>
    if a.stop ≤ v ∧ v ≤ b.stop then some 0
    else (findLowerIndexAux v (b :: rest)).map (· + 1)
  | _ => none

/-- Linear interpolation and formatting of the bracket found by
`getColorValue` (renderer.ts 1056-1076): `t = (v - a.stop) / (b.stop -
a.stop)` (0 on a degenerate bracket), each channel
`round(a.ch + t * (b.ch - a.ch))`, formatted as before; if either stop's
color fails to parse, the lower stop's literal color string is returned. -/
def bracketResult {α : Type} [LinearOrderedField α] [FloorRing α]
    (normalizedValue : α) (lowerStop upperStop : ColorStop α) : String :=
  let range := upperStop.stop - lowerStop.stop
  let normalizedPosition :=
    if range ≠ 0 then (normalizedValue - lowerStop.stop) / range else 0
  match parseColor lowerStop.color, parseColor upperStop.color with
  | some lowerColor, some upperColor =>
    let r := round ((lowerColor.r : α) + normalizedPosition * ((upperColor.r : α) - (lowerColor.r : α)))
    let g := round ((lowerColor.g : α) + normalizedPosition * ((upperColor.g : α) - (lowerColor.g : α)))
    let b := round ((lowerColor.b : α) + normalizedPosition * ((upperColor.b : α) - (lowerColor.b : α)))
    "rgb(" ++ toString r ++ ", " ++ toString g ++ ", " ++ toString b ++ ")"
  | _, _ => lowerStop.color

/-- `Renderer.getColorValue` (renderer.ts 1029-1077): clamp the value to
[0,1] (the source clamps twice), sort the stops, handle the empty /
single-stop / out-of-range cases, then interpolate inside the bracket
found by the scan loop. -/
def getColorValue {α : Type} [LinearOrderedField α] [FloorRing α]
    (value : α) (colorStops : List (ColorStop α)) : String :=
  let normalizedValue := jsMax 0 (jsMin 1 (jsMax 0 (jsMin 1 value)))
  let sortedStops := sortStops colorStops
  if sortedStops.length = 0 then "rgb(0, 0, 0)"
  else if sortedStops.length = 1 then (sortedStops.getD 0 default).color
  else
    let lowerIndex := (findLowerIndexAux normalizedValue sortedStops).getD 0
    if normalizedValue ≤ (sortedStops.getD 0 default).stop then
      (sortedStops.getD 0 default).color
    else if (sortedStops.getD (sortedStops.length - 1) default).stop ≤ normalizedValue then
      (sortedStops.getD (sortedStops.length - 1) default).color
    else
      bracketResult normalizedValue (sortedStops.getD lowerIndex default)
        (sortedStops.getD (lowerIndex + 1) default)

/-! ## Tile manager (`Renderer.renderMultiCanvas`, renderer.ts 682-768)

Pixel widths and offsets are CSS-pixel numbers, modelled over ℚ. -/

/-- `Renderer.MAX_CANVAS_WIDTH` (renderer.ts 19). -/
def MAX_CANVAS_WIDTH : ℚ := 8000

/-- `Renderer.MAX_NODES` (renderer.ts 20). -/
def MAX_NODES : ℕ := 10

/-- JavaScript `%` on numbers: `a - b * trunc(a / b)`; all uses here have
nonnegative operands, where `trunc = floor`. -/
def jsMod (a b : ℚ) : ℚ :=
  a - b * (⌊a / b⌋ : ℤ)

/-- Truthiness of an optional numeric option (absent or `0` is falsy; JS
`NaN` is not modelled). -/
def optTruthy : Option ℚ → Bool
  | some x => decide (x ≠ 0)
  | none => false

/-- `options.barWidth || 0.5` and friends: the option's value when truthy,
else the given default. -/
def jsOrDefault (o : Option ℚ) (d : ℚ) : ℚ :=
  match o with
  | some x => if x = 0 then d else x
  | none => d

/-- `singleCanvasWidth` as computed by `renderMultiCanvas` (renderer.ts
694-708): `Math.min(MAX_CANVAS_WIDTH, clientWidth, totalWidth)`, then —
when a bar width or gap is in effect — rounded down to a whole number of
bar-plus-gap units. -/
def singleCanvasWidthOf (clientWidth totalWidth : ℚ)
    (barWidthOpt barGapOpt : Option ℚ) : ℚ :=
  let w := jsMin MAX_CANVAS_WIDTH (jsMin clientWidth totalWidth)
  if optTruthy barWidthOpt || optTruthy barGapOpt then
    let barWidth := jsOrDefault barWidthOpt (1 / 2)
    let barGap := jsOrDefault barGapOpt (barWidth / 2)
    let totalBarWidth := barWidth + barGap
    if jsMod w totalBarWidth ≠ 0 then (⌊w / totalBarWidth⌋ : ℤ) * totalBarWidth
    else w
  else w

/-- `numCanvases = Math.ceil(totalWidth / singleCanvasWidth)`
(renderer.ts 736). -/
def numCanvasesOf (totalWidth singleCanvasWidth : ℚ) : ℕ :=
  (⌈totalWidth / singleCanvasWidth⌉).toNat

/-- `offset = index * singleCanvasWidth` of `draw` (renderer.ts 715). -/
def tileOffset (singleCanvasWidth : ℚ) (index : ℕ) : ℚ :=
  (index : ℚ) * singleCanvasWidth

/-- `clampedWidth = Math.min(totalWidth - offset, singleCanvasWidth)` of
`draw` (renderer.ts 716); tile `index` covers the pixel range
`[offset, offset + clampedWidth)`. -/
def tileClampedWidth (totalWidth singleCanvasWidth : ℚ) (index : ℕ) : ℚ :=
  jsMin (totalWidth - tileOffset singleCanvasWidth index) singleCanvasWidth

/-! The lazy-rendering state: `drawnIndexes` (renderer.ts 695, 711-733,
746-767), the set of tile indices whose canvases are currently mounted.
`draw` inserts a valid index (and appends the canvas); `clearCanvases`
empties both containers and the tracking object when more than
`MAX_NODES` tiles are tracked. -/

/-- `draw(index)` (renderer.ts 711-724), restricted to its effect on
`drawnIndexes`: out-of-range indices are ignored, already-drawn indices
are unchanged. -/
def drawTile (numCanvases : ℕ) (s : Finset ℕ) (index : ℤ) : Finset ℕ :=
  if 0 ≤ index ∧ index < (numCanvases : ℤ) then insert index.toNat s else s

/-- `draw(c - 1); draw(c); draw(c + 1)` (renderer.ts 751-753 and
761-763). -/
def drawWindow (numCanvases : ℕ) (s : Finset ℕ) (c : ℤ) : Finset ℕ :=
  drawTile numCanvases (drawTile numCanvases (drawTile numCanvases s (c - 1)) c) (c + 1)

/-- `clearCanvases` (renderer.ts 727-733): hard reset once more than
`MAX_NODES` tiles have been materialized. -/
def clearCanvases (s : Finset ℕ) : Finset ℕ :=
  if MAX_NODES < s.card then ∅ else s

/-- The initial lazy render (renderer.ts 746-753):
`startCanvas = Math.floor((scrollLeft / totalWidth) * numCanvases)`,
then the three-tile window around it, starting from no drawn tiles. -/
def initialDrawnTiles (numCanvases : ℕ) (scrollLeft totalWidth : ℚ) : Finset ℕ :=
  drawWindow numCanvases ∅ ⌊scrollLeft / totalWidth * (numCanvases : ℚ)⌋

/-- The scroll-event handler (renderer.ts 757-764):
`canvasIndex = Math.floor((scrollLeft / totalWidth) * numCanvases)`,
then `clearCanvases()`, then the three-tile window. -/
def handleScroll (numCanvases : ℕ) (s : Finset ℕ) (scrollLeft totalWidth : ℚ) :
    Finset ℕ :=
  drawWindow numCanvases (clearCanvases s) ⌊scrollLeft / totalWidth * (numCanvases : ℚ)⌋

/-- The set of valid tile indices in the three-tile window around `c`
(used to state what `drawWindow` adds). -/
def windowTiles (numCanvases : ℕ) (c : ℤ) : Finset ℕ :=
  (({c - 1, c, c + 1} : Finset ℤ).filter
    (fun i => 0 ≤ i ∧ i < (numCanvases : ℤ))).image Int.toNat

/-! ## Segment count chosen by `render` (renderer.ts 1159-1167) -/

/-- The 128-sample FFT analysis window (renderer.ts 814, 933, 1161). -/
def fftSize : ℕ := 128

/-- `hopSize = Math.floor(fftSize / 4)` (renderer.ts 815, 934). -/
def hopSize : ℕ := fftSize / 4

/-- The segment count `render` passes to the analyzers when colorization
is enabled (renderer.ts 1160-1167):
`maxPossibleSegments = floor(len / fftSize)`,
`segmentsBasedOnWidth = max(100, ceil(width / pixelRatio / 5))`,
`finalNumberOfSegments = max(1, min(maxPossibleSegments, segmentsBasedOnWidth))`. -/
def finalNumberOfSegments (audioLen : ℕ) (width pixelRatio : ℚ) : ℕ :=
  let maxPossibleSegments := audioLen / fftSize
  let segmentsBasedOnWidth := max 100 (⌈width / pixelRatio / 5⌉).toNat
  max 1 (min maxPossibleSegments segmentsBasedOnWidth)

/-! ## Spectral analyzer (renderer.ts 799-1020)

The sample values and all derived quantities are IEEE doubles in the
source, modelled over ℝ. -/

/-- The slice of `WaveSurferOptions` read by the analyzers. -/
structure AnalysisOptions where
  colorizeByBrightness : Bool
  prominentFrequencyMode : Bool
  normalizationPower : Option ℝ

/-- A decoded audio buffer: the analyzers read only `getChannelData(0)`,
`length` and `sampleRate`.  `channel0 i` is sample `i`; the code only
indexes within `[0, length)`. -/
structure AudioBufferModel where
  length : ℕ
  sampleRate : ℝ
  channel0 : ℕ → ℝ

/-- The Hann taper `0.5 * (1 - cos(2π i / (fftSize - 1)))`
(renderer.ts 848, 967). -/
noncomputable def hannWindow (i : ℕ) : ℝ :=
  (1 / 2) * (1 - Real.cos (2 * Real.pi * (i : ℝ) / ((fftSize : ℝ) - 1)))

/-- The tapered frame handed to the transform: sample `frameStart + i`
times the Hann window (renderer.ts 846-853, 965-972). -/
noncomputable def windowedFrame (data : ℕ → ℝ) (frameStart i : ℕ) : ℝ :=
  data (frameStart + i) * hannWindow i

/-- Modelled from the spec: "Compute the magnitude spectrum via a
discrete Fourier transform of the tapered window".  The FFT
implementation (`src/utils/fft.js`) is not among the sources, so bin
`k`'s magnitude `sqrt(re² + im²)` (renderer.ts 866-868, 981-983) is
taken as the `fftSize`-point DFT of the windowed frame. -/
noncomputable def dftMagnitude (x : ℕ → ℝ) (k : ℕ) : ℝ :=
  Real.sqrt
    ((∑ n ∈ Finset.range fftSize, x n * Real.cos (2 * Real.pi * (k : ℝ) * (n : ℝ) / (fftSize : ℝ))) ^ 2 +
     (∑ n ∈ Finset.range fftSize, x n * Real.sin (2 * Real.pi * (k : ℝ) * (n : ℝ) / (fftSize : ℝ))) ^ 2)

/-- One frame of `analyzeBrightness` (renderer.ts 844-883): spectral
centroid over bins `1 ≤ i < fftSize / 2` with frequency
`i * sampleRate / fftSize`, the zero-denominator guard, then logarithmic
compression `log(1 + centroid) / log(1 + sampleRate / 2)`. -/
noncomputable def frameCentroidNorm (sampleRate : ℝ) (data : ℕ → ℝ) (frameStart : ℕ) : ℝ :=
  let mag := fun i => dftMagnitude (windowedFrame data frameStart) i
  let numerator := ∑ i ∈ Finset.Ico 1 (fftSize / 2), (i : ℝ) * sampleRate / (fftSize : ℝ) * mag i
  let denominator := ∑ i ∈ Finset.Ico 1 (fftSize / 2), mag i
  let centroid := if denominator ≠ 0 then numerator / denominator else 0
  Real.log (1 + centroid) / Real.log (1 + sampleRate / 2)

/-- The maximal-magnitude bin of one frame of `analyzeProminentFrequency`
(renderer.ts 977-989): scan bins `1 ≤ i < fftSize / 2`, strict
improvement, starting from magnitude 0 and bin 0. -/
noncomputable def prominentBinOfFrame (mag : ℕ → ℝ) : ℕ :=
  ((List.range' 1 (fftSize / 2 - 1)).foldl
    (fun acc i => if mag i > acc.1 then (mag i, i) else acc) ((0 : ℝ), (0 : ℕ))).2

/-- One frame of `analyzeProminentFrequency` (renderer.ts 963-995):
the prominent bin converted to a frequency. -/
noncomputable def frameProminentFrequency (sampleRate : ℝ) (data : ℕ → ℝ) (frameStart : ℕ) : ℝ :=
  let mag := fun i => dftMagnitude (windowedFrame data frameStart) i
  (prominentBinOfFrame mag : ℝ) * sampleRate / (fftSize : ℝ)

/-- The frame start offsets of the loop
`for (frameStart = segmentStart; frameStart + fftSize <= segmentEnd;
frameStart += hopSize)` (renderer.ts 844, 963). -/
def frameStarts (segmentStart segmentEnd : ℕ) : List ℕ :=
  (List.range
    (if segmentStart + fftSize ≤ segmentEnd then
      (segmentEnd - segmentStart - fftSize) / hopSize + 1
    else 0)).map (fun j => segmentStart + hopSize * j)

/-- The raw (pre-normalization) value of one segment of
`analyzeBrightness` (renderer.ts 829-889): 0.5 for an undersized
segment, else the average of the per-frame compressed centroids (0.5
again if no frame fits). -/
noncomputable def segmentRawBrightness (buf : AudioBufferModel)
    (segmentSize segmentIndex : ℕ) : ℝ :=
  let segmentStart := segmentIndex * segmentSize
  let segmentEnd := min (segmentStart + segmentSize) buf.length
  if segmentEnd - segmentStart < fftSize then 1 / 2
  else
    let fs := frameStarts segmentStart segmentEnd
    let totalCentroid := (fs.map (frameCentroidNorm buf.sampleRate buf.channel0)).sum
    if 0 < fs.length then totalCentroid / (fs.length : ℝ) else 1 / 2

/-- The raw value of one segment of `analyzeProminentFrequency`
(renderer.ts 948-1002): `sampleRate / 4` for an undersized segment, else
the average of the per-frame prominent frequencies (`sampleRate / 4`
again if no frame fits). -/
noncomputable def segmentRawProminent (buf : AudioBufferModel)
    (segmentSize segmentIndex : ℕ) : ℝ :=
  let segmentStart := segmentIndex * segmentSize
  let segmentEnd := min (segmentStart + segmentSize) buf.length
  if segmentEnd - segmentStart < fftSize then buf.sampleRate / 4
  else
    let fs := frameStarts segmentStart segmentEnd
    let total := (fs.map (frameProminentFrequency buf.sampleRate buf.channel0)).sum
    if 0 < fs.length then total / (fs.length : ℝ) else buf.sampleRate / 4

/-- `Math.min(...values)` over a (nonempty) collected array. -/
noncomputable def listMin : List ℝ → ℝ
  | [] => 0
  | x :: xs => xs.foldl min x

/-- `Math.max(...values)`. -/
noncomputable def listMax : List ℝ → ℝ
  | [] => 0
  | x :: xs => xs.foldl max x

/-- `Renderer.analyzeBrightness` (renderer.ts 799-918), producing the
final `brightnessData`: early empty return when colorization is off;
`segmentSize = floor(length / numberOfSegments)`; one raw value per
segment; global min/max with the range forced to 1 when
`max - min ≤ 0.001`; then `(v - min) / range`, raised to
`normalizationPower` when configured.  (`Math.pow` on the nonnegative
bases arising here agrees with `Real.rpow` for positive exponents, the
only exponents exercised below.) -/
noncomputable def analyzeBrightness (opts : AnalysisOptions) (buf : AudioBufferModel)
    (numberOfSegments : ℕ) : List ℝ :=
  if opts.colorizeByBrightness = false then []
  else
    let segmentSize := buf.length / numberOfSegments
    let rawBrightnessValues :=
      (List.range numberOfSegments).map (segmentRawBrightness buf segmentSize)
    if rawBrightnessValues.length = 0 then [1 / 2]
    else
      let minBrightness := listMin rawBrightnessValues
      let maxBrightness := listMax rawBrightnessValues
      let range :=
        if maxBrightness - minBrightness > 1 / 1000 then maxBrightness - minBrightness
        else 1
      rawBrightnessValues.map (fun v =>
        let normalizedValue := (v - minBrightness) / range
        match opts.normalizationPower with
        | none => normalizedValue
        | some p => Real.rpow normalizedValue p)

/-- `Renderer.analyzeProminentFrequency` (renderer.ts 924-1020),
producing the final `prominentFrequencyData`: one raw value per segment;
global min/max with the range forced to 1 when `max - min ≤ 0.001`; then
`(v - min) / range` (no power transform). -/
noncomputable def analyzeProminentFrequency (buf : AudioBufferModel)
    (numberOfSegments : ℕ) : List ℝ :=
  let segmentSize := buf.length / numberOfSegments
  let rawProminentFrequencyValues :=
    (List.range numberOfSegments).map (segmentRawProminent buf segmentSize)
  if rawProminentFrequencyValues.length = 0 then [1 / 2]
  else
    let mn := listMin rawProminentFrequencyValues
    let mx := listMax rawProminentFrequencyValues
    let range := if mx - mn > 1 / 1000 then mx - mn else 1
    rawProminentFrequencyValues.map (fun v => (v - mn) / range)

/-- The analysis phase of `Renderer.render` (renderer.ts 1158-1180),
returning the `(brightnessData, prominentFrequencyData)` pair as left
after the pass: with colorization on, the selected analyzer runs with
`finalNumberOfSegments` segments and the other array is cleared; with
colorization off both are cleared. -/
noncomputable def renderAnalysisState (opts : AnalysisOptions) (buf : AudioBufferModel)
    (width pixelRatio : ℚ) : List ℝ × List ℝ :=
  if opts.colorizeByBrightness = true then
    let n := finalNumberOfSegments buf.length width pixelRatio
    if opts.prominentFrequencyMode = true then ([], analyzeProminentFrequency buf n)
    else (analyzeBrightness opts buf n, [])
  else ([], [])

/-! ## Rasterizer fill-style discipline (renderer.ts 362-614)

Only the canvas context's `fillStyle` is tracked.  Both colorized paths
capture `defaultFillStyle = ctx.fillStyle` on entry, write a per-bar /
per-segment interpolated color inside the loop, and restore
`defaultFillStyle` afterwards (renderer.ts 385, 461, 482 and 540, 555,
613); the non-colorized paths never write `fillStyle`. -/

/-- `renderBarWaveform` (renderer.ts 362-483) restricted to its effect on
`ctx.fillStyle`.  `useColorization = colorizeByBrightness &&
brightnessData.length > 0` (renderer.ts 384).  The bar loop walks sample
indices `0..length`; each completed bar selects
`analysisData[min(len-1, floor(barCount / (width/(barWidth+barGap)) * len))]`
and writes the mapped color (an out-of-range JS index reads `undefined`;
the written color value is irrelevant to the tracked state, and is
modelled with default 0). -/
noncomputable def renderBarWaveformFillStyle (colorizeByBrightness : Bool)
    (brightnessData prominentFrequencyData : List ℝ) (prominentFrequencyMode : Bool)
    (brightnessColors : List (ColorStop ℝ)) (length : ℕ)
    (width barWidth barGap : ℚ) (fillStyle0 : String) : String :=
  let useColorization := colorizeByBrightness && decide (0 < brightnessData.length)
  let defaultFillStyle := fillStyle0
  if useColorization = false then fillStyle0
  else
    let barIndexScale := width / (barWidth + barGap) / (length : ℚ)
    let step := fun (st : ℤ × ℕ × String) (i : ℕ) =>
      let x := round ((i : ℚ) * barIndexScale)
      if st.1 < x then
        let barCount := st.2.1
        let brightnessIndex := min (brightnessData.length - 1)
          (⌊(barCount : ℚ) / (width / (barWidth + barGap)) * (brightnessData.length : ℚ)⌋).toNat
        let analysisData :=
          if prominentFrequencyMode = true then prominentFrequencyData else brightnessData
        let analysisValue := analysisData.getD brightnessIndex 0
        (x, barCount + 1, getColorValue analysisValue brightnessColors)
      else st
    let _finalState := (List.range (length + 1)).foldl step (0, 0, fillStyle0)
    defaultFillStyle

/-- `renderLineWaveform` (renderer.ts 485-614) restricted to its effect
on `ctx.fillStyle`.  The colorized path loops over segment indices,
breaking once `startX = segmentIndex * segmentWidth` reaches the canvas
width (`segmentWidth ≥ 1`, so the break condition is monotone and the
loop body runs exactly on the `takeWhile` prefix), writes one mapped
color per segment, and restores the entry fill style. -/
noncomputable def renderLineWaveformFillStyle (colorizeByBrightness : Bool)
    (brightnessData prominentFrequencyData : List ℝ) (prominentFrequencyMode : Bool)
    (brightnessColors : List (ColorStop ℝ)) (width : ℚ) (fillStyle0 : String) : String :=
  let useColorization := colorizeByBrightness && decide (0 < brightnessData.length)
  let defaultFillStyle := fillStyle0
  if useColorization = false then fillStyle0
  else
    let segmentWidth := jsMax 1 ((⌈width / (brightnessData.length : ℚ)⌉ : ℤ) : ℚ)
    let _finalState :=
      ((List.range brightnessData.length).takeWhile
        (fun (segmentIndex : ℕ) => decide (((segmentIndex : ℕ) : ℚ) * segmentWidth < width))).foldl
        (fun _fs segmentIndex =>
          let analysisData :=
            if prominentFrequencyMode = true then prominentFrequencyData else brightnessData
          let analysisValue := analysisData.getD segmentIndex 0
          getColorValue analysisValue brightnessColors) fillStyle0
    defaultFillStyle

/-! ## Helper lemmas -/

theorem jsMin_eq_min {α : Type} [LinearOrder α] (a b : α) : jsMin a b = min a b := by
  unfold jsMin
  split_ifs with h
  · exact (min_eq_left h).symm
  · exact (min_eq_right (le_of_not_le h)).symm

theorem jsMax_eq_max {α : Type} [LinearOrder α] (a b : α) : jsMax a b = max a b := by
  unfold jsMax
  split_ifs with h
  · exact (max_eq_right h).symm
  · exact (max_eq_left (le_of_not_le h)).symm

/-- Coverage and disjointness of the tile ranges `[i*W, i*W + clamped)`:
every point of `[0, totalWidth)` lies in exactly one tile of index below
`numCanvasesOf`. -/
theorem tile_cover_existsUnique (totalWidth W : ℚ) (_hT : 0 < totalWidth) (hW : 0 < W)
    (x : ℚ) (hx0 : 0 ≤ x) (hx : x < totalWidth) :
    ∃! i : ℕ, i < numCanvasesOf totalWidth W ∧
      tileOffset W i ≤ x ∧ x < tileOffset W i + tileClampedWidth totalWidth W i := by
  have hxW : 0 ≤ x / W := div_nonneg hx0 hW.le
  have hf0 : (0 : ℤ) ≤ ⌊x / W⌋ := Int.floor_nonneg.mpr hxW
  have hcast : ((⌊x / W⌋.toNat : ℕ) : ℚ) = ((⌊x / W⌋ : ℤ) : ℚ) := by
    exact_mod_cast congrArg (fun z : ℤ => (z : ℚ)) (Int.toNat_of_nonneg hf0)
  have hle : ((⌊x / W⌋ : ℤ) : ℚ) * W ≤ x := by
    have h1 : ((⌊x / W⌋ : ℤ) : ℚ) ≤ x / W := Int.floor_le _
    calc ((⌊x / W⌋ : ℤ) : ℚ) * W ≤ (x / W) * W := by
          exact mul_le_mul_of_nonneg_right h1 hW.le
      _ = x := div_mul_cancel₀ x hW.ne'
  have hlt : x < (((⌊x / W⌋ : ℤ) : ℚ) + 1) * W := by
    have h1 : x / W < ((⌊x / W⌋ : ℤ) : ℚ) + 1 := Int.lt_floor_add_one _
    calc x = (x / W) * W := (div_mul_cancel₀ x hW.ne').symm
      _ < (((⌊x / W⌋ : ℤ) : ℚ) + 1) * W := by
          exact mul_lt_mul_of_pos_right h1 hW
  refine ⟨⌊x / W⌋.toNat, ⟨?_, ?_, ?_⟩, ?_⟩
  · -- the chosen index is below numCanvases
    have hdiv : x / W < totalWidth / W := by gcongr
    have hceil : totalWidth / W ≤ ((⌈totalWidth / W⌉ : ℤ) : ℚ) := Int.le_ceil _
    have hZ : ⌊x / W⌋ < ⌈totalWidth / W⌉ := by
      have : ((⌊x / W⌋ : ℤ) : ℚ) < ((⌈totalWidth / W⌉ : ℤ) : ℚ) :=
        lt_of_le_of_lt (Int.floor_le _) (lt_of_lt_of_le hdiv hceil)
      exact_mod_cast this
    unfold numCanvasesOf
    omega
  · unfold tileOffset
    rw [hcast]
    exact hle
  · unfold tileOffset tileClampedWidth tileOffset
    rw [jsMin_eq_min, hcast]
    rcases le_total (totalWidth - ((⌊x / W⌋ : ℤ) : ℚ) * W) W with h | h
    · rw [min_eq_left h]
      have : ((⌊x / W⌋ : ℤ) : ℚ) * W + (totalWidth - ((⌊x / W⌋ : ℤ) : ℚ) * W) = totalWidth := by ring
      rw [this]
      exact hx
    · rw [min_eq_right h]
      calc x < (((⌊x / W⌋ : ℤ) : ℚ) + 1) * W := hlt
        _ = ((⌊x / W⌋ : ℤ) : ℚ) * W + W := by ring
  · -- uniqueness
    rintro j ⟨hjn, hj1, hj2⟩
    unfold tileOffset at hj1
    unfold tileOffset tileClampedWidth tileOffset at hj2
    rw [jsMin_eq_min] at hj2
    have hj2' : x < ((j : ℕ) : ℚ) * W + W :=
      lt_of_lt_of_le hj2 (add_le_add_left (min_le_right _ _) _)
    have hfloor : ⌊x / W⌋ = (j : ℤ) := by
      rw [Int.floor_eq_iff]
      constructor
      · have : ((j : ℕ) : ℚ) * W ≤ x := hj1
        rw [le_div_iff₀ hW]
        exact_mod_cast this
      · have : x < (((j : ℕ) : ℚ) + 1) * W := by
          calc x < ((j : ℕ) : ℚ) * W + W := hj2'
            _ = (((j : ℕ) : ℚ) + 1) * W := by ring
        rw [div_lt_iff₀ hW]
        exact_mod_cast this
    omega

/-- Tiles lie inside `[0, totalWidth)`: nonnegative offsets, and each
tile's end `offset + clampedWidth` is at most `totalWidth`. -/
theorem tile_in_range (totalWidth W : ℚ) (hW : 0 ≤ W) (i : ℕ) :
    0 ≤ tileOffset W i ∧
      tileOffset W i + tileClampedWidth totalWidth W i ≤ totalWidth := by
  constructor
  · exact mul_nonneg (by positivity) hW
  · unfold tileClampedWidth
    rw [jsMin_eq_min]
    calc tileOffset W i + min (totalWidth - tileOffset W i) W
        ≤ tileOffset W i + (totalWidth - tileOffset W i) :=
          add_le_add_left (min_le_left _ _) _
      _ = totalWidth := by ring

/-- The tile width cap chosen for Scenario C: viewport at least 8000 px,
total width 20000 px, no bar options. -/
theorem singleCanvasWidth_scenarioC (clientWidth : ℚ) (hcw : 8000 ≤ clientWidth) :
    singleCanvasWidthOf clientWidth 20000 none none = 8000 := by
  unfold singleCanvasWidthOf optTruthy
  simp only [Bool.or_false]
  rw [jsMin_eq_min, jsMin_eq_min]
  show MAX_CANVAS_WIDTH ⊓ (clientWidth ⊓ 20000) = 8000
  unfold MAX_CANVAS_WIDTH
  rw [min_eq_left]
  exact le_min hcw (by norm_num)

theorem numCanvases_scenarioC : numCanvasesOf 20000 8000 = 3 := by
  unfold numCanvasesOf
  have : (⌈(20000 : ℚ) / 8000⌉ : ℤ) = 3 := by
    rw [Int.ceil_eq_iff]
    norm_num
  rw [this]
  rfl

theorem tileRanges_scenarioC :
    tileOffset 8000 0 = 0 ∧ tileOffset 8000 0 + tileClampedWidth 20000 8000 0 = 8000 ∧
    tileOffset 8000 1 = 8000 ∧ tileOffset 8000 1 + tileClampedWidth 20000 8000 1 = 16000 ∧
    tileOffset 8000 2 = 16000 ∧ tileOffset 8000 2 + tileClampedWidth 20000 8000 2 = 20000 := by
  unfold tileOffset tileClampedWidth tileOffset jsMin
  norm_num

/-! ## Scroll-window state machine lemmas -/

theorem mem_drawTile {n : ℕ} {s : Finset ℕ} {i : ℤ} {x : ℕ} :
    x ∈ drawTile n s i ↔ x ∈ s ∨ ((x : ℤ) = i ∧ x < n) := by
  unfold drawTile
  split_ifs with h
  · simp only [Finset.mem_insert]
    constructor
    · rintro (hx | hx)
      · right
        omega
      · left
        exact hx
    · rintro (hx | hx)
      · right
        exact hx
      · left
        omega
  · constructor
    · intro hx
      left
      exact hx
    · rintro (hx | hx)
      · exact hx
      · omega

theorem mem_windowTiles {n : ℕ} {c : ℤ} {x : ℕ} :
    x ∈ windowTiles n c ↔
      (((x : ℤ) = c - 1 ∨ (x : ℤ) = c ∨ (x : ℤ) = c + 1) ∧ x < n) := by
  unfold windowTiles
  simp only [Finset.mem_image, Finset.mem_filter, Finset.mem_insert, Finset.mem_singleton]
  constructor
  · rintro ⟨y, ⟨hy3, hy0, hyn⟩, rfl⟩
    constructor
    · omega
    · omega
  · rintro ⟨hx3, hxn⟩
    exact ⟨(x : ℤ), ⟨by omega, by omega, by omega⟩, by omega⟩

/-- `draw(c-1); draw(c); draw(c+1)` adds exactly the valid indices of the
three-tile window and removes nothing. -/
theorem drawWindow_eq_union (n : ℕ) (s : Finset ℕ) (c : ℤ) :
    drawWindow n s c = s ∪ windowTiles n c := by
  ext x
  unfold drawWindow
  rw [mem_drawTile, mem_drawTile, mem_drawTile, Finset.mem_union, mem_windowTiles]
  tauto

/-- The scroll handler: hard-reset when over the node ceiling, then union
in the valid three-tile window around the new scroll position. -/
theorem handleScroll_eq (n : ℕ) (s : Finset ℕ) (scrollLeft totalWidth : ℚ) :
    handleScroll n s scrollLeft totalWidth =
      clearCanvases s ∪
        windowTiles n ⌊scrollLeft / totalWidth * (n : ℚ)⌋ := by
  unfold handleScroll
  exact drawWindow_eq_union _ _ _

/-! ## Segment-count lemmas -/

/-- When the buffer holds at least one full analysis window, the chosen
segment count respects `floor(length / fftSize)`. -/
theorem finalNumberOfSegments_le (audioLen : ℕ) (width pixelRatio : ℚ)
    (h : fftSize ≤ audioLen) :
    finalNumberOfSegments audioLen width pixelRatio ≤ audioLen / fftSize := by
  unfold finalNumberOfSegments
  have h1 : 1 ≤ audioLen / fftSize := by
    exact (Nat.one_le_div_iff (by norm_num [fftSize])).mpr h
  simp only [Nat.max_def, Nat.min_def]
  split_ifs <;> omega

theorem one_le_finalNumberOfSegments (audioLen : ℕ) (width pixelRatio : ℚ) :
    1 ≤ finalNumberOfSegments audioLen width pixelRatio := by
  unfold finalNumberOfSegments
  simp only [Nat.max_def, Nat.min_def]
  split_ifs <;> omega

/-! ## List min/max lemmas -/

theorem foldl_min_le_init (xs : List ℝ) (a : ℝ) : xs.foldl min a ≤ a := by
  induction xs generalizing a with
  | nil => exact le_refl a
  | cons y ys ih =>
    calc (y :: ys).foldl min a = ys.foldl min (min a y) := rfl
      _ ≤ min a y := ih _
      _ ≤ a := min_le_left _ _

theorem foldl_min_le_mem {xs : List ℝ} {v : ℝ} (hv : v ∈ xs) (a : ℝ) :
    xs.foldl min a ≤ v := by
  induction xs generalizing a with
  | nil => cases hv
  | cons y ys ih =>
    rcases List.mem_cons.mp hv with rfl | hv'
    · calc (v :: ys).foldl min a = ys.foldl min (min a v) := rfl
        _ ≤ min a v := foldl_min_le_init _ _
        _ ≤ v := min_le_right _ _
    · exact ih hv' _

theorem init_le_foldl_max (xs : List ℝ) (a : ℝ) : a ≤ xs.foldl max a := by
  induction xs generalizing a with
  | nil => exact le_refl a
  | cons y ys ih =>
    calc a ≤ max a y := le_max_left _ _
      _ ≤ ys.foldl max (max a y) := ih _
      _ = (y :: ys).foldl max a := rfl

theorem mem_le_foldl_max {xs : List ℝ} {v : ℝ} (hv : v ∈ xs) (a : ℝ) :
    v ≤ xs.foldl max a := by
  induction xs generalizing a with
  | nil => cases hv
  | cons y ys ih =>
    rcases List.mem_cons.mp hv with rfl | hv'
    · calc v ≤ max a v := le_max_right _ _
        _ ≤ ys.foldl max (max a v) := init_le_foldl_max _ _
        _ = (v :: ys).foldl max a := rfl
    · exact ih hv' _

theorem listMin_le {l : List ℝ} {v : ℝ} (hv : v ∈ l) : listMin l ≤ v := by
  cases l with
  | nil => cases hv
  | cons x xs =>
    rcases List.mem_cons.mp hv with rfl | hv'
    · exact foldl_min_le_init _ _
    · exact foldl_min_le_mem hv' _

theorem le_listMax {l : List ℝ} {v : ℝ} (hv : v ∈ l) : v ≤ listMax l := by
  cases l with
  | nil => cases hv
  | cons x xs =>
    rcases List.mem_cons.mp hv with rfl | hv'
    · exact init_le_foldl_max _ _
    · exact mem_le_foldl_max hv' _

/-- The global min-max rescale of both analyzers maps every collected raw
value into [0,1], in both the genuine-range and the forced-range (`≤
0.001`) branches. -/
theorem normalized_mem_unitInterval {l : List ℝ} {v : ℝ} (hv : v ∈ l) :
    0 ≤ (v - listMin l) / (if listMax l - listMin l > 1 / 1000 then listMax l - listMin l else 1) ∧
      (v - listMin l) / (if listMax l - listMin l > 1 / 1000 then listMax l - listMin l else 1) ≤ 1 := by
  have hmn : listMin l ≤ v := listMin_le hv
  have hmx : v ≤ listMax l := le_listMax hv
  split_ifs with h
  · have hpos : 0 < listMax l - listMin l := lt_trans (by norm_num) h
    constructor
    · exact div_nonneg (by linarith) hpos.le
    · rw [div_le_one hpos]
      linarith
  · push_neg at h
    constructor
    · simp only [div_one]
      linarith
    · simp only [div_one]
      linarith

/-! ## Analyzer shape and bound lemmas -/

theorem analyzeBrightness_length (opts : AnalysisOptions) (buf : AudioBufferModel)
    (n : ℕ) (hc : opts.colorizeByBrightness = true) (hn : 1 ≤ n) :
    (analyzeBrightness opts buf n).length = n := by
  unfold analyzeBrightness
  rw [hc]
  simp only [Bool.true_eq_false, if_false]
  have hlen : ((List.range n).map (segmentRawBrightness buf (buf.length / n))).length = n := by
    rw [List.length_map, List.length_range]
  rw [if_neg (by omega)]
  rw [List.length_map, hlen]

theorem analyzeProminentFrequency_length (buf : AudioBufferModel)
    (n : ℕ) (hn : 1 ≤ n) :
    (analyzeProminentFrequency buf n).length = n := by
  unfold analyzeProminentFrequency
  have hlen : ((List.range n).map (segmentRawProminent buf (buf.length / n))).length = n := by
    rw [List.length_map, List.length_range]
  rw [if_neg (by omega)]
  rw [List.length_map, hlen]

/-- `0 < p` for every configured normalization power (the only regime the
claims quantify over; `Math.pow` then agrees with `Real.rpow` on the
nonnegative bases produced by the rescale). -/
def powerOk (opts : AnalysisOptions) : Prop :=
  ∀ p, opts.normalizationPower = some p → 0 < p

theorem analyzeBrightness_mem_unitInterval (opts : AnalysisOptions)
    (buf : AudioBufferModel) (n : ℕ) (hc : opts.colorizeByBrightness = true)
    (hn : 1 ≤ n) (hp : powerOk opts) :
    ∀ v ∈ analyzeBrightness opts buf n, 0 ≤ v ∧ v ≤ 1 := by
  intro v hv
  unfold analyzeBrightness at hv
  rw [hc] at hv
  simp only [Bool.true_eq_false, if_false] at hv
  rw [if_neg (by
    rw [List.length_map, List.length_range]
    omega)] at hv
  rw [List.mem_map] at hv
  obtain ⟨w, hw, rfl⟩ := hv
  have hbase := normalized_mem_unitInterval hw
  cases hpow : opts.normalizationPower with
  | none =>
    simpa only [hpow] using hbase
  | some p =>
    have hppos : 0 < p := hp p hpow
    simp only [hpow]
    constructor
    · exact Real.rpow_nonneg hbase.1 p
    · exact Real.rpow_le_one hbase.1 hbase.2 hppos.le

theorem analyzeProminentFrequency_mem_unitInterval (buf : AudioBufferModel)
    (n : ℕ) (hn : 1 ≤ n) :
    ∀ v ∈ analyzeProminentFrequency buf n, 0 ≤ v ∧ v ≤ 1 := by
  intro v hv
  unfold analyzeProminentFrequency at hv
  rw [if_neg (by
    rw [List.length_map, List.length_range]
    omega)] at hv
  rw [List.mem_map] at hv
  obtain ⟨w, hw, rfl⟩ := hv
  exact normalized_mem_unitInterval hw

/-! ## Color-mapper bracket lemmas -/

theorem sortStops_sorted {α : Type} [LinearOrder α] (stops : List (ColorStop α)) :
    (sortStops stops).Pairwise (fun a b => a.stop ≤ b.stop) := by
  haveI : IsTotal (ColorStop α) (fun a b => a.stop ≤ b.stop) :=
    ⟨fun a b => le_total a.stop b.stop⟩
  haveI : IsTrans (ColorStop α) (fun a b => a.stop ≤ b.stop) :=
    ⟨fun _ _ _ hab hbc => le_trans hab hbc⟩
  exact List.sorted_insertionSort _ _

theorem sortStops_length {α : Type} [LinearOrder α] (stops : List (ColorStop α)) :
    (sortStops stops).length = stops.length := by
  unfold sortStops
  exact List.length_insertionSort _ _

theorem sorted_getD_mono {α : Type} [LinearOrder α] [Zero α] {s : List (ColorStop α)}
    (hp : s.Pairwise (fun a b => a.stop ≤ b.stop)) {i j : ℕ} (hij : i ≤ j)
    (hj : j < s.length) :
    (s.getD i default).stop ≤ (s.getD j default).stop := by
  rcases Nat.lt_or_ge i j with hlt | hge
  · have hi : i < s.length := lt_trans hlt hj
    have := List.pairwise_iff_get.mp hp ⟨i, hi⟩ ⟨j, hj⟩ hlt
    rw [List.getD_eq_get s default hi, List.getD_eq_get s default hj]
    exact this
  · have : i = j := le_antisymm hij hge
    subst this
    exact le_refl _

/-- In a sorted stop list, the head's position bounds every element
reachable by `getD`. -/
theorem sorted_head_le_getD {α : Type} [LinearOrder α] [Zero α] {b : ColorStop α}
    {rest : List (ColorStop α)}
    (hp : (b :: rest).Pairwise (fun a c => a.stop ≤ c.stop)) (j : ℕ)
    (hj : j < (b :: rest).length) :
    b.stop ≤ ((b :: rest).getD j default).stop :=
  sorted_getD_mono hp (Nat.zero_le j) hj

/-- The scan loop of `getColorValue` finds exactly the sorted bracket
strictly containing the value. -/
theorem findLowerIndexAux_bracket {α : Type} [LinearOrder α] [Zero α] (v : α) :
    ∀ (s : List (ColorStop α)) (i : ℕ),
      s.Pairwise (fun a b => a.stop ≤ b.stop) →
      i + 1 < s.length →
      (s.getD i default).stop < v → v < (s.getD (i + 1) default).stop →
      findLowerIndexAux v s = some i := by
  intro s
  induction s with
  | nil =>
    intro i _ hi _ _
    simp at hi
  | cons a tail ih =>
    intro i hp hi hlo hhi
    cases tail with
    | nil =>
      simp at hi
    | cons b rest =>
      cases i with
      | zero =>
        unfold findLowerIndexAux
        rw [if_pos]
        constructor
        · rw [List.getD_cons_zero] at hlo
          exact le_of_lt hlo
        · rw [List.getD_cons_succ, List.getD_cons_zero] at hhi
          exact le_of_lt hhi
      | succ j =>
        have hptail : (b :: rest).Pairwise (fun a b => a.stop ≤ b.stop) :=
          (List.pairwise_cons.mp hp).2
        have hj1 : j + 1 < (b :: rest).length := by
          simp only [List.length_cons] at hi ⊢
          omega
        have hlo' : ((b :: rest).getD j default).stop < v := by
          rw [List.getD_cons_succ] at hlo
          exact hlo
        have hhi' : v < ((b :: rest).getD (j + 1) default).stop := by
          rw [List.getD_cons_succ] at hhi
          exact hhi
        have hbv : b.stop < v :=
          lt_of_le_of_lt (sorted_head_le_getD hptail j (by omega)) hlo'
        unfold findLowerIndexAux
        rw [if_neg]
        · rw [ih j hptail hj1 hlo' hhi']
          rfl
        · rintro ⟨-, hvb⟩
          exact absurd hbv (not_lt_of_le hvb)

/-- `getColorValue` clamps its input; within [0,1] the clamp is the
identity. -/
theorem clamp01_eq_self {α : Type} [LinearOrderedField α]
    {v : α} (hv0 : 0 ≤ v) (hv1 : v ≤ 1) :
    jsMax 0 (jsMin 1 (jsMax 0 (jsMin 1 v))) = v := by
  unfold jsMin jsMax
  split_ifs <;> linarith

/-- For a value strictly inside the sorted bracket `(i, i+1)`,
`getColorValue` reaches the interpolation stage with exactly that
bracket's stops. -/
theorem getColorValue_eq_bracketResult {α : Type} [LinearOrderedField α] [FloorRing α]
    (stops : List (ColorStop α)) (i : ℕ) (v : α)
    (hv0 : 0 ≤ v) (hv1 : v ≤ 1)
    (hi : i + 1 < (sortStops stops).length)
    (hlo : ((sortStops stops).getD i default).stop < v)
    (hhi : v < ((sortStops stops).getD (i + 1) default).stop) :
    getColorValue v stops =
      bracketResult v ((sortStops stops).getD i default)
        ((sortStops stops).getD (i + 1) default) := by
  have hs := sortStops_sorted stops
  have hfind : findLowerIndexAux v (sortStops stops) = some i :=
    findLowerIndexAux_bracket v (sortStops stops) i hs hi hlo hhi
  have h0 : ¬ (v ≤ ((sortStops stops).getD 0 default).stop) := by
    have : ((sortStops stops).getD 0 default).stop ≤ ((sortStops stops).getD i default).stop :=
      sorted_getD_mono hs (Nat.zero_le i) (by omega)
    push_neg
    exact lt_of_le_of_lt this hlo
  have hlast :
      ¬ (((sortStops stops).getD ((sortStops stops).length - 1) default).stop ≤ v) := by
    have hle : ((sortStops stops).getD (i + 1) default).stop ≤
        ((sortStops stops).getD ((sortStops stops).length - 1) default).stop :=
      sorted_getD_mono hs (i := i + 1) (j := (sortStops stops).length - 1)
        (by omega) (by omega)
    push_neg
    exact lt_of_lt_of_le hhi hle
  unfold getColorValue
  rw [clamp01_eq_self hv0 hv1]
  rw [if_neg (by omega), if_neg (by omega), hfind]
  rw [Option.getD_some]
  rw [if_neg h0, if_neg hlast]

/-! ## Zero-signal evaluation lemmas (Scenario A) -/

theorem dftMagnitude_zero (frameStart k : ℕ) :
    dftMagnitude (windowedFrame (fun _ => 0) frameStart) k = 0 := by
  unfold dftMagnitude windowedFrame
  simp

theorem frameCentroidNorm_zero (sampleRate : ℝ) (frameStart : ℕ) :
    frameCentroidNorm sampleRate (fun _ => 0) frameStart = 0 := by
  unfold frameCentroidNorm
  simp [dftMagnitude_zero]

/-- A segment of an all-zero buffer that is at least one analysis window
long has raw brightness 0 (denominator-0 guard, then `log 1 = 0`). -/
theorem segmentRawBrightness_zero (len : ℕ) (sampleRate : ℝ) (segmentSize i : ℕ)
    (h : ¬ (min (i * segmentSize + segmentSize) len - i * segmentSize < fftSize)) :
    segmentRawBrightness ⟨len, sampleRate, fun _ => 0⟩ segmentSize i = 0 := by
  unfold segmentRawBrightness
  rw [if_neg h]
  have hfits : i * segmentSize + fftSize ≤ min (i * segmentSize + segmentSize) len := by
    simp only [fftSize] at h ⊢
    omega
  have hlen : 0 < (frameStarts (i * segmentSize) (min (i * segmentSize + segmentSize) len)).length := by
    unfold frameStarts
    rw [List.length_map, List.length_range]
    rw [if_pos hfits]
    exact Nat.succ_pos _
  rw [if_pos hlen]
  have hsum :
      ((frameStarts (i * segmentSize) (min (i * segmentSize + segmentSize) len)).map
        (frameCentroidNorm (AudioBufferModel.mk len sampleRate (fun _ => 0)).sampleRate
          (AudioBufferModel.mk len sampleRate (fun _ => 0)).channel0)).sum = 0 := by
    apply List.sum_eq_zero
    intro x hx
    rw [List.mem_map] at hx
    obtain ⟨fs, _, rfl⟩ := hx
    exact frameCentroidNorm_zero _ _
  rw [hsum]
  exact zero_div _

theorem listMin_replicate (n : ℕ) (x : ℝ) : listMin (List.replicate (n + 1) x) = x := by
  rw [List.replicate_succ]
  unfold listMin
  induction n with
  | zero => rfl
  | succ m ih =>
    rw [List.replicate_succ]
    show (List.replicate m x).foldl min (min x x) = x
    rw [min_self]
    exact ih

theorem listMax_replicate (n : ℕ) (x : ℝ) : listMax (List.replicate (n + 1) x) = x := by
  rw [List.replicate_succ]
  unfold listMax
  induction n with
  | zero => rfl
  | succ m ih =>
    rw [List.replicate_succ]
    show (List.replicate m x).foldl max (max x x) = x
    rw [max_self]
    exact ih

/-- Scenario A pipeline: mono all-zero buffer, 16000 samples at 16 kHz,
10 segments, centroid mode — the output is ten exact zeros. -/
theorem analyzeBrightness_zero_16000 (opts : AnalysisOptions)
    (hc : opts.colorizeByBrightness = true) (hp : powerOk opts) :
    analyzeBrightness opts ⟨16000, 16000, fun _ => 0⟩ 10 = List.replicate 10 0 := by
  unfold analyzeBrightness
  rw [hc]
  simp only [Bool.true_eq_false, if_false]
  have hseg : (16000 : ℕ) / 10 = 1600 := by norm_num
  have hraw :
      (List.range 10).map
        (segmentRawBrightness ⟨16000, 16000, fun _ => 0⟩ ((AudioBufferModel.mk 16000 16000 (fun _ => 0)).length / 10)) =
        List.replicate 10 0 := by
    rw [List.eq_replicate_iff]
    constructor
    · rw [List.length_map, List.length_range]
    · intro b hb
      rw [List.mem_map] at hb
      obtain ⟨i, hi, rfl⟩ := hb
      rw [List.mem_range] at hi
      show segmentRawBrightness _ (16000 / 10) i = 0
      rw [hseg]
      apply segmentRawBrightness_zero
      unfold fftSize
      omega
  rw [hraw]
  rw [if_neg (by rw [List.length_replicate]; omega)]
  have h10 : (10 : ℕ) = 9 + 1 := rfl
  rw [h10, listMin_replicate, listMax_replicate]
  rw [if_neg (by norm_num)]
  rw [← h10, List.map_replicate]
  have : ((0 : ℝ) - 0) / 1 = 0 := by norm_num
  cases hpow : opts.normalizationPower with
  | none =>
    simp only [this]
  | some p =>
    simp only [this]
    rw [show Real.rpow (0 : ℝ) p = 0 from Real.zero_rpow (ne_of_gt (hp p hpow))]

/-! ## Fill-style restoration lemmas -/

theorem renderBarWaveformFillStyle_restores (colorizeByBrightness : Bool)
    (brightnessData prominentFrequencyData : List ℝ) (prominentFrequencyMode : Bool)
    (brightnessColors : List (ColorStop ℝ)) (length : ℕ)
    (width barWidth barGap : ℚ) (fillStyle0 : String) :
    renderBarWaveformFillStyle colorizeByBrightness brightnessData
      prominentFrequencyData prominentFrequencyMode brightnessColors length
      width barWidth barGap fillStyle0 = fillStyle0 := by
  simp only [renderBarWaveformFillStyle]
  split_ifs <;> rfl

theorem renderLineWaveformFillStyle_restores (colorizeByBrightness : Bool)
    (brightnessData prominentFrequencyData : List ℝ) (prominentFrequencyMode : Bool)
    (brightnessColors : List (ColorStop ℝ)) (width : ℚ) (fillStyle0 : String) :
    renderLineWaveformFillStyle colorizeByBrightness brightnessData
      prominentFrequencyData prominentFrequencyMode brightnessColors width
      fillStyle0 = fillStyle0 := by
  simp only [renderLineWaveformFillStyle]
  split_ifs <;> rfl

/-! ## Claim theorems -/

/-- C1: for every audio buffer and every requested segment count ≥ 1
(with colorization enabled, and with any configured normalization power
positive), both `analyzeBrightness` (centroid mode) and
`analyzeProminentFrequency` (peak mode) return an array whose length
equals the requested segment count and all of whose elements lie in
[0,1]; being total Lean functions, they terminate without error. -/
theorem claim_C1_spectral_analysis_output (opts : AnalysisOptions)
    (buf : AudioBufferModel) (numberOfSegments : ℕ) (hn : 1 ≤ numberOfSegments)
    (hc : opts.colorizeByBrightness = true) (hp : powerOk opts) :
    ((analyzeBrightness opts buf numberOfSegments).length = numberOfSegments ∧
      ∀ v ∈ analyzeBrightness opts buf numberOfSegments, 0 ≤ v ∧ v ≤ 1) ∧
    ((analyzeProminentFrequency buf numberOfSegments).length = numberOfSegments ∧
      ∀ v ∈ analyzeProminentFrequency buf numberOfSegments, 0 ≤ v ∧ v ≤ 1) :=
  ⟨⟨analyzeBrightness_length opts buf numberOfSegments hc hn,
    analyzeBrightness_mem_unitInterval opts buf numberOfSegments hc hn hp⟩,
   ⟨analyzeProminentFrequency_length buf numberOfSegments hn,
    analyzeProminentFrequency_mem_unitInterval buf numberOfSegments hn⟩⟩

/-- C1 witness: the contract at a concrete buffer (200 zero samples at
16 kHz) and segment count 3 with colorization on and no power. -/
theorem claim_C1_witness :
    ((analyzeBrightness ⟨true, false, none⟩ ⟨200, 16000, fun _ => 0⟩ 3).length = 3 ∧
      ∀ v ∈ analyzeBrightness ⟨true, false, none⟩ ⟨200, 16000, fun _ => 0⟩ 3,
        0 ≤ v ∧ v ≤ 1) ∧
    ((analyzeProminentFrequency ⟨200, 16000, fun _ => 0⟩ 3).length = 3 ∧
      ∀ v ∈ analyzeProminentFrequency ⟨200, 16000, fun _ => 0⟩ 3, 0 ≤ v ∧ v ≤ 1) :=
  claim_C1_spectral_analysis_output ⟨true, false, none⟩ ⟨200, 16000, fun _ => 0⟩ 3
    (by norm_num) rfl (by intro p h; simp at h)

/-- C2: for every positive total width and positive per-tile width cap,
the tile pixel ranges `[i*W, i*W + clamped)` for `i < ceil(total/W)`
partition `[0, totalWidth)` exactly (each point covered by exactly one
tile, every tile inside the total range); and in Scenario C
(totalWidth = 20000, viewport ≥ 8000, no bar options) the chosen cap is
8000, giving exactly 3 tiles with ranges [0,8000), [8000,16000),
[16000,20000). -/
theorem claim_C2_tile_partition :
    (∀ totalWidth W : ℚ, 0 < totalWidth → 0 < W →
      (∀ x : ℚ, 0 ≤ x → x < totalWidth →
        ∃! i : ℕ, i < numCanvasesOf totalWidth W ∧
          tileOffset W i ≤ x ∧
            x < tileOffset W i + tileClampedWidth totalWidth W i) ∧
      (∀ i : ℕ, 0 ≤ tileOffset W i ∧
        tileOffset W i + tileClampedWidth totalWidth W i ≤ totalWidth)) ∧
    (∀ clientWidth : ℚ, 8000 ≤ clientWidth →
      singleCanvasWidthOf clientWidth 20000 none none = 8000) ∧
    numCanvasesOf 20000 8000 = 3 ∧
    (tileOffset 8000 0 = 0 ∧
      tileOffset (8000 : ℚ) 0 + tileClampedWidth 20000 8000 0 = 8000 ∧
      tileOffset 8000 1 = 8000 ∧
      tileOffset (8000 : ℚ) 1 + tileClampedWidth 20000 8000 1 = 16000 ∧
      tileOffset 8000 2 = 16000 ∧
      tileOffset (8000 : ℚ) 2 + tileClampedWidth 20000 8000 2 = 20000) :=
  ⟨fun totalWidth W hT hW =>
    ⟨fun x hx0 hx => tile_cover_existsUnique totalWidth W hT hW x hx0 hx,
     fun i => tile_in_range totalWidth W hW.le i⟩,
   singleCanvasWidth_scenarioC, numCanvases_scenarioC, tileRanges_scenarioC⟩

/-- C2 witness: the unique-cover property at totalWidth 20000, cap 8000,
pixel 12345, and the scenario computations at viewport 9000. -/
theorem claim_C2_witness :
    (∃! i : ℕ, i < numCanvasesOf 20000 8000 ∧
      tileOffset 8000 i ≤ 12345 ∧
        (12345 : ℚ) < tileOffset 8000 i + tileClampedWidth 20000 8000 i) ∧
    singleCanvasWidthOf 9000 20000 none none = 8000 ∧
    numCanvasesOf 20000 8000 = 3 :=
  ⟨(claim_C2_tile_partition.1 20000 8000 (by norm_num) (by norm_num)).1 12345
      (by norm_num) (by norm_num),
   claim_C2_tile_partition.2.1 9000 (by norm_num),
   claim_C2_tile_partition.2.2.1⟩

/-- C3 counterexample: stops {0 ↦ "rgb(0,0,0)", 1 ↦ "xyz"} and value
0.9.  The bracketing stop nearer to 0.9 is the upper one (distance 0.1 <
0.9), whose literal color is "xyz", but `getColorValue` returns the
*lower* stop's literal "rgb(0,0,0)" — contradicting the claim that the
nearer bracketing stop's literal is returned. -/
theorem claim_C3_counterexample :
    getColorValue ((9 : ℚ) / 10) [⟨0, "rgb(0,0,0)"⟩, ⟨1, "xyz"⟩] = "rgb(0,0,0)" ∧
    1 - (9 : ℚ) / 10 < (9 : ℚ) / 10 - 0 ∧
    ("rgb(0,0,0)" : String) ≠ "xyz" := by
  refine ⟨?_, by norm_num, by decide⟩
  norm_num [getColorValue, sortStops, List.insertionSort, List.orderedInsert, jsMin, jsMax,
    findLowerIndexAux, bracketResult,
    (by decide : parseColor "xyz" = none),
    (by decide : parseColor "rgb(0,0,0)" = some ⟨0, 0, 0⟩)]

/-- C3 (amended): for every value in [0,1] strictly inside a bracketing
pair of the sorted stops with at least one unparsable stop color,
`getColorValue` does not throw (it is total) and returns the literal
color string of the LOWER bracketing stop (not the nearer one). -/
theorem claim_C3_amended_fallback (stops : List (ColorStop ℚ)) (i : ℕ) (v : ℚ)
    (hv0 : 0 ≤ v) (hv1 : v ≤ 1) (hi : i + 1 < (sortStops stops).length)
    (hlo : ((sortStops stops).getD i default).stop < v)
    (hhi : v < ((sortStops stops).getD (i + 1) default).stop)
    (hfail : parseColor ((sortStops stops).getD i default).color = none ∨
      parseColor ((sortStops stops).getD (i + 1) default).color = none) :
    getColorValue v stops = ((sortStops stops).getD i default).color := by
  rw [getColorValue_eq_bracketResult stops i v hv0 hv1 hi hlo hhi]
  unfold bracketResult
  cases hl : parseColor ((sortStops stops).getD i default).color with
  | none =>
    cases hu : parseColor ((sortStops stops).getD (i + 1) default).color <;> rfl
  | some lc =>
    cases hu : parseColor ((sortStops stops).getD (i + 1) default).color with
    | none => rfl
    | some uc =>
      exfalso
      rcases hfail with h | h
      · rw [h] at hl
        cases hl
      · rw [h] at hu
        cases hu

/-- C3 witness: the amended fallback at the counterexample's inputs. -/
theorem claim_C3_witness :
    getColorValue ((9 : ℚ) / 10) [⟨0, "rgb(0,0,0)"⟩, ⟨1, "xyz"⟩] =
      ((sortStops [⟨0, "rgb(0,0,0)"⟩, ⟨(1 : ℚ), "xyz"⟩]).getD 0 default).color := by
  have hsort : sortStops [⟨0, "rgb(0,0,0)"⟩, ⟨(1 : ℚ), "xyz"⟩] =
      [⟨0, "rgb(0,0,0)"⟩, ⟨1, "xyz"⟩] := by
    norm_num [sortStops, List.insertionSort, List.orderedInsert]
  exact claim_C3_amended_fallback [⟨0, "rgb(0,0,0)"⟩, ⟨1, "xyz"⟩] 0 ((9 : ℚ) / 10)
    (by norm_num) (by norm_num)
    (by rw [hsort]; norm_num)
    (by rw [hsort]; norm_num)
    (by rw [hsort]; norm_num)
    (by rw [hsort]; right; decide)

/-- C4 counterexample: numCanvases 8, scroll starting over tile 2
(drawn set {1,2,3}), then a scroll notification over tile 5.  The claim
says the materialized set becomes exactly {4,5,6}; the code draws
{4,5,6} *in addition* and unmounts nothing, leaving {1,2,3,4,5,6}. -/
theorem claim_C4_counterexample :
    initialDrawnTiles 8 16000 64000 = {1, 2, 3} ∧
    handleScroll 8 {1, 2, 3} 40000 64000 = {1, 2, 3, 4, 5, 6} ∧
    handleScroll 8 {1, 2, 3} 40000 64000 ≠ {4, 5, 6} := by
  have h1 : initialDrawnTiles 8 16000 64000 = {1, 2, 3} := by
    unfold initialDrawnTiles
    rw [drawWindow_eq_union]
    have hc : ⌊(16000 : ℚ) / 64000 * ((8 : ℕ) : ℚ)⌋ = (2 : ℤ) := by
      push_cast
      norm_num
    rw [hc]
    ext x
    rw [Finset.mem_union, mem_windowTiles]
    simp only [Finset.not_mem_empty, false_or, Finset.mem_insert, Finset.mem_singleton]
    omega
  have hcl : clearCanvases {1, 2, 3} = ({1, 2, 3} : Finset ℕ) := by
    unfold clearCanvases MAX_NODES
    rw [if_neg (by decide)]
  have h2 : handleScroll 8 {1, 2, 3} 40000 64000 = {1, 2, 3, 4, 5, 6} := by
    rw [handleScroll_eq]
    have hc : ⌊(40000 : ℚ) / 64000 * ((8 : ℕ) : ℚ)⌋ = (5 : ℤ) := by
      push_cast
      norm_num
    rw [hc, hcl]
    ext x
    rw [Finset.mem_union, mem_windowTiles]
    simp only [Finset.mem_insert, Finset.mem_singleton]
    omega
  refine ⟨h1, h2, ?_⟩
  rw [h2]
  decide

/-- C4 (amended): handling a scroll notification materializes the valid
three-tile window around the tile under the new offset IN ADDITION to
the previously drawn tiles (after a hard reset iff more than MAX_NODES
were tracked); tiles outside the window are not unmounted — every
previously drawn tile survives whenever no reset fires. -/
theorem claim_C4_amended (n : ℕ) (s : Finset ℕ) (scrollLeft totalWidth : ℚ) :
    handleScroll n s scrollLeft totalWidth =
      clearCanvases s ∪ windowTiles n ⌊scrollLeft / totalWidth * (n : ℚ)⌋ ∧
    (s.card ≤ MAX_NODES →
      ∀ x ∈ s, x ∈ handleScroll n s scrollLeft totalWidth) := by
  constructor
  · exact handleScroll_eq n s scrollLeft totalWidth
  · intro hcard x hx
    rw [handleScroll_eq]
    rw [Finset.mem_union]
    left
    unfold clearCanvases
    rw [if_neg (by omega)]
    exact hx

/-- C4 witness: the amended description at the counterexample's inputs,
with survival of the previously drawn tile 1. -/
theorem claim_C4_witness :
    (handleScroll 8 {1, 2, 3} 40000 64000 =
      clearCanvases {1, 2, 3} ∪
        windowTiles 8 ⌊(40000 : ℚ) / 64000 * ((8 : ℕ) : ℚ)⌋) ∧
    (1 : ℕ) ∈ handleScroll 8 {1, 2, 3} 40000 64000 :=
  ⟨(claim_C4_amended 8 {1, 2, 3} 40000 64000).1,
   (claim_C4_amended 8 {1, 2, 3} 40000 64000).2 (by decide) 1 (by decide)⟩

/-- C5 counterexample: a buffer of 100 samples (shorter than the
128-sample FFT window) rendered at width 500, pixel ratio 1:
`floor(N / fftSize) = 0` but the code's `max(1, ...)` forces the segment
count to 1, violating `segmentCount ≤ floor(N / fftSize)`. -/
theorem claim_C5_counterexample :
    ¬ (finalNumberOfSegments 100 500 1 ≤ 100 / fftSize) ∧
    finalNumberOfSegments 100 500 1 = 1 ∧ 100 / fftSize = 0 := by
  have hceil : (⌈(500 : ℚ) / 1 / 5⌉ : ℤ) = 100 := by norm_num
  have hseg : finalNumberOfSegments 100 500 1 = 1 := by
    unfold finalNumberOfSegments fftSize
    rw [hceil]
    simp only [Nat.max_def, Nat.min_def]
    norm_num
  refine ⟨?_, hseg, by norm_num [fftSize]⟩
  rw [hseg]
  norm_num [fftSize]

/-- C5 (amended): whenever the buffer holds at least one full FFT window
(`N ≥ 128`), the segment count passed to the analysis satisfies
`segmentCount ≤ floor(N / 128)`; for shorter buffers the code forces
exactly one segment instead. -/
theorem claim_C5_amended (audioLen : ℕ) (width pixelRatio : ℚ)
    (h : fftSize ≤ audioLen) :
    finalNumberOfSegments audioLen width pixelRatio ≤ audioLen / fftSize :=
  finalNumberOfSegments_le audioLen width pixelRatio h

/-- C5 witness: the amended bound at a 256-sample buffer. -/
theorem claim_C5_witness :
    finalNumberOfSegments 256 500 1 ≤ 256 / fftSize :=
  claim_C5_amended 256 500 1 (by norm_num [fftSize])

/-- C6: Scenario A — mono all-zero buffer of 16000 samples at 16 kHz,
segmentCount 10, centroid mode, any configured power positive or absent:
every per-window compressed centroid is 0 (zero-denominator guard), and
the returned array is exactly ten values all equal to 0.0 (the min-max
range is forced to 1 and the power transform fixes 0). -/
theorem claim_C6_scenarioA_flat_zero (opts : AnalysisOptions)
    (hc : opts.colorizeByBrightness = true) (hp : powerOk opts) :
    (∀ frameStart : ℕ, frameCentroidNorm 16000 (fun _ => 0) frameStart = 0) ∧
    analyzeBrightness opts ⟨16000, 16000, fun _ => 0⟩ 10 = List.replicate 10 0 :=
  ⟨fun frameStart => frameCentroidNorm_zero 16000 frameStart,
   analyzeBrightness_zero_16000 opts hc hp⟩

/-- C6 witness: Scenario A with colorization on and no configured
power. -/
theorem claim_C6_witness :
    (∀ frameStart : ℕ, frameCentroidNorm 16000 (fun _ => 0) frameStart = 0) ∧
    analyzeBrightness ⟨true, false, none⟩ ⟨16000, 16000, fun _ => 0⟩ 10 =
      List.replicate 10 0 :=
  claim_C6_scenarioA_flat_zero ⟨true, false, none⟩ rfl (by intro p h; simp at h)

/-- C7: for every stop sequence, every value of [0,1] strictly inside a
bracketing pair of the sorted stops whose two colors both parse,
`getColorValue` returns the channel-wise rounded linear interpolation
`round(a.ch + t * (b.ch - a.ch))` with
`t = (v - a.stop) / (b.stop - a.stop)`; and in Scenario B (stops
{0 ↦ rgb(0,0,0), 1 ↦ rgb(255,255,255)}, value 0.5) it returns
`rgb(128, 128, 128)`, rounding each channel up from 127.5. -/
theorem claim_C7_interpolation :
    (∀ (stops : List (ColorStop ℚ)) (i : ℕ) (v : ℚ) (lc uc : Rgb),
      0 ≤ v → v ≤ 1 → i + 1 < (sortStops stops).length →
      ((sortStops stops).getD i default).stop < v →
      v < ((sortStops stops).getD (i + 1) default).stop →
      parseColor ((sortStops stops).getD i default).color = some lc →
      parseColor ((sortStops stops).getD (i + 1) default).color = some uc →
      getColorValue v stops =
        "rgb(" ++
          toString (round ((lc.r : ℚ) +
            (v - ((sortStops stops).getD i default).stop) /
              (((sortStops stops).getD (i + 1) default).stop -
                ((sortStops stops).getD i default).stop) *
            ((uc.r : ℚ) - (lc.r : ℚ)))) ++ ", " ++
          toString (round ((lc.g : ℚ) +
            (v - ((sortStops stops).getD i default).stop) /
              (((sortStops stops).getD (i + 1) default).stop -
                ((sortStops stops).getD i default).stop) *
            ((uc.g : ℚ) - (lc.g : ℚ)))) ++ ", " ++
          toString (round ((lc.b : ℚ) +
            (v - ((sortStops stops).getD i default).stop) /
              (((sortStops stops).getD (i + 1) default).stop -
                ((sortStops stops).getD i default).stop) *
            ((uc.b : ℚ) - (lc.b : ℚ)))) ++ ")") ∧
    getColorValue ((1 : ℚ) / 2) [⟨0, "rgb(0,0,0)"⟩, ⟨1, "rgb(255,255,255)"⟩] =
      "rgb(128, 128, 128)" := by
  constructor
  · intro stops i v lc uc hv0 hv1 hi hlo hhi hl hu
    rw [getColorValue_eq_bracketResult stops i v hv0 hv1 hi hlo hhi]
    have hne : ((sortStops stops).getD (i + 1) default).stop -
        ((sortStops stops).getD i default).stop ≠ 0 :=
      sub_ne_zero_of_ne (ne_of_gt (lt_trans hlo hhi))
    simp only [bracketResult, hl, hu, if_pos hne]
  · norm_num [getColorValue, sortStops, List.insertionSort, List.orderedInsert, jsMin,
      jsMax, findLowerIndexAux, bracketResult,
      (by decide : parseColor "rgb(0,0,0)" = some ⟨0, 0, 0⟩),
      (by decide : parseColor "rgb(255,255,255)" = some ⟨255, 255, 255⟩), round_eq]
    decide

/-- C7 witness: the interpolation formula at stops
{0 ↦ rgb(0,0,0), 1 ↦ rgb(255,255,255)} and value 1/4, together with
Scenario B. -/
theorem claim_C7_witness :
    getColorValue ((1 : ℚ) / 4) [⟨0, "rgb(0,0,0)"⟩, ⟨1, "rgb(255,255,255)"⟩] =
      "rgb(" ++
        toString (round (((Rgb.mk 0 0 0).r : ℚ) +
          ((1 : ℚ) / 4 - ((sortStops [⟨0, "rgb(0,0,0)"⟩, ⟨(1 : ℚ), "rgb(255,255,255)"⟩]).getD 0 default).stop) /
            (((sortStops [⟨0, "rgb(0,0,0)"⟩, ⟨(1 : ℚ), "rgb(255,255,255)"⟩]).getD 1 default).stop -
              ((sortStops [⟨0, "rgb(0,0,0)"⟩, ⟨(1 : ℚ), "rgb(255,255,255)"⟩]).getD 0 default).stop) *
          (((Rgb.mk 255 255 255).r : ℚ) - ((Rgb.mk 0 0 0).r : ℚ)))) ++ ", " ++
        toString (round (((Rgb.mk 0 0 0).g : ℚ) +
          ((1 : ℚ) / 4 - ((sortStops [⟨0, "rgb(0,0,0)"⟩, ⟨(1 : ℚ), "rgb(255,255,255)"⟩]).getD 0 default).stop) /
            (((sortStops [⟨0, "rgb(0,0,0)"⟩, ⟨(1 : ℚ), "rgb(255,255,255)"⟩]).getD 1 default).stop -
              ((sortStops [⟨0, "rgb(0,0,0)"⟩, ⟨(1 : ℚ), "rgb(255,255,255)"⟩]).getD 0 default).stop) *
          (((Rgb.mk 255 255 255).g : ℚ) - ((Rgb.mk 0 0 0).g : ℚ)))) ++ ", " ++
        toString (round (((Rgb.mk 0 0 0).b : ℚ) +
          ((1 : ℚ) / 4 - ((sortStops [⟨0, "rgb(0,0,0)"⟩, ⟨(1 : ℚ), "rgb(255,255,255)"⟩]).getD 0 default).stop) /
            (((sortStops [⟨0, "rgb(0,0,0)"⟩, ⟨(1 : ℚ), "rgb(255,255,255)"⟩]).getD 1 default).stop -
              ((sortStops [⟨0, "rgb(0,0,0)"⟩, ⟨(1 : ℚ), "rgb(255,255,255)"⟩]).getD 0 default).stop) *
          (((Rgb.mk 255 255 255).b : ℚ) - ((Rgb.mk 0 0 0).b : ℚ)))) ++ ")" := by
  have hsort : sortStops [⟨0, "rgb(0,0,0)"⟩, ⟨(1 : ℚ), "rgb(255,255,255)"⟩] =
      [⟨0, "rgb(0,0,0)"⟩, ⟨1, "rgb(255,255,255)"⟩] := by
    norm_num [sortStops, List.insertionSort, List.orderedInsert]
  exact claim_C7_interpolation.1 [⟨0, "rgb(0,0,0)"⟩, ⟨1, "rgb(255,255,255)"⟩] 0
    ((1 : ℚ) / 4) ⟨0, 0, 0⟩ ⟨255, 255, 255⟩
    (by norm_num) (by norm_num)
    (by rw [hsort]; norm_num)
    (by rw [hsort]; norm_num)
    (by rw [hsort]; norm_num)
    (by rw [hsort]; decide)
    (by rw [hsort]; decide)

/-- C8: whenever more than MAX_NODES (= 10) tiles have ever been
materialized, the next scroll notification first destroys all tracked
tile surfaces (the cleared tracking set) and only then materializes the
currently-needed three-tile window — the resulting state is exactly the
window drawn from the empty tracking state. -/
theorem claim_C8_hard_reset (n : ℕ) (s : Finset ℕ) (scrollLeft totalWidth : ℚ)
    (h : MAX_NODES < s.card) :
    handleScroll n s scrollLeft totalWidth =
      drawWindow n ∅ ⌊scrollLeft / totalWidth * (n : ℚ)⌋ := by
  unfold handleScroll clearCanvases
  rw [if_pos h]

/-- C8 witness: eleven tracked tiles exceed the ceiling, so the next
scroll handling starts from the empty state. -/
theorem claim_C8_witness :
    handleScroll 4 (Finset.range 11) 7 28 =
      drawWindow 4 ∅ ⌊(7 : ℚ) / 28 * ((4 : ℕ) : ℚ)⌋ :=
  claim_C8_hard_reset 4 (Finset.range 11) 7 28 (by decide)

/-- C9: after the analysis phase of a render pass, at most one of the
two analysis arrays is non-empty: with colorization on and the
prominent-frequency analysis type, `prominentFrequencyData` is populated
and `brightnessData` is cleared; with any other analysis type the
converse; with colorization off both are empty. -/
theorem claim_C9_exclusive_population (opts : AnalysisOptions)
    (buf : AudioBufferModel) (width pixelRatio : ℚ) :
    (opts.colorizeByBrightness = true → opts.prominentFrequencyMode = true →
      (renderAnalysisState opts buf width pixelRatio).1 = [] ∧
      (renderAnalysisState opts buf width pixelRatio).2 ≠ []) ∧
    (opts.colorizeByBrightness = true → opts.prominentFrequencyMode = false →
      (renderAnalysisState opts buf width pixelRatio).1 ≠ [] ∧
      (renderAnalysisState opts buf width pixelRatio).2 = []) ∧
    (opts.colorizeByBrightness = false →
      (renderAnalysisState opts buf width pixelRatio).1 = [] ∧
      (renderAnalysisState opts buf width pixelRatio).2 = []) := by
  have hn := one_le_finalNumberOfSegments buf.length width pixelRatio
  refine ⟨?_, ?_, ?_⟩
  · intro hc hm
    unfold renderAnalysisState
    rw [hc, hm]
    simp only [eq_self_iff_true, if_true]
    refine ⟨by trivial, ?_⟩
    apply List.ne_nil_of_length_pos
    show 0 < (analyzeProminentFrequency buf
      (finalNumberOfSegments buf.length width pixelRatio)).length
    rw [analyzeProminentFrequency_length buf _ hn]
    exact hn
  · intro hc hm
    unfold renderAnalysisState
    rw [hc, hm]
    simp only [eq_self_iff_true, if_true, Bool.false_eq_true, if_false]
    refine ⟨?_, by trivial⟩
    apply List.ne_nil_of_length_pos
    show 0 < (analyzeBrightness opts buf
      (finalNumberOfSegments buf.length width pixelRatio)).length
    rw [analyzeBrightness_length opts buf _ hc hn]
    exact hn
  · intro hc
    unfold renderAnalysisState
    rw [hc]
    simp

/-- C9 witness: colorization on in centroid mode at a concrete buffer —
`brightnessData` populated, `prominentFrequencyData` cleared. -/
theorem claim_C9_witness :
    (renderAnalysisState ⟨true, false, none⟩ ⟨0, 0, fun _ => 0⟩ 500 1).1 ≠ [] ∧
    (renderAnalysisState ⟨true, false, none⟩ ⟨0, 0, fun _ => 0⟩ 500 1).2 = [] :=
  (claim_C9_exclusive_population ⟨true, false, none⟩ ⟨0, 0, fun _ => 0⟩ 500 1).2.1
    rfl rfl

/-- C10: with per-segment colorization active, both the bar-mode and
line-mode rasterization loops leave the context's fill style as they
found it — the interpolated per-bar / per-segment colors are written
inside the loop and the entry fill style (derived from `waveColor`) is
restored afterwards. -/
theorem claim_C10_fillStyle_restored (colorizeByBrightness : Bool)
    (brightnessData prominentFrequencyData : List ℝ)
    (prominentFrequencyMode : Bool) (brightnessColors : List (ColorStop ℝ))
    (length : ℕ) (width barWidth barGap : ℚ) (fillStyle0 : String)
    (_hc : colorizeByBrightness = true) (_hbd : 0 < brightnessData.length) :
    renderBarWaveformFillStyle colorizeByBrightness brightnessData
      prominentFrequencyData prominentFrequencyMode brightnessColors length
      width barWidth barGap fillStyle0 = fillStyle0 ∧
    renderLineWaveformFillStyle colorizeByBrightness brightnessData
      prominentFrequencyData prominentFrequencyMode brightnessColors width
      fillStyle0 = fillStyle0 :=
  ⟨renderBarWaveformFillStyle_restores colorizeByBrightness brightnessData
      prominentFrequencyData prominentFrequencyMode brightnessColors length
      width barWidth barGap fillStyle0,
   renderLineWaveformFillStyle_restores colorizeByBrightness brightnessData
      prominentFrequencyData prominentFrequencyMode brightnessColors width
      fillStyle0⟩

/-- C10 witness: an active colorized render (one brightness value) with
a concrete entry fill style. -/
theorem claim_C10_witness :
    renderBarWaveformFillStyle true [0] [] false [] 4 100 2 1 "#999" = "#999" ∧
    renderLineWaveformFillStyle true [0] [] false [] 100 "#999" = "#999" :=
  claim_C10_fillStyle_restored true [0] [] false [] 4 100 2 1 "#999" rfl
    (by simp)

end WS
